import Mathlib

-- Shallow embedding of accessionlib.py (accession ID query expression
-- parsing and SQL predicate construction). Python strings are modelled as
-- List Char; Python ints produced by string.atoi on digit strings as Nat.
-- Python runtime exceptions (UnboundLocalError from reading a local that
-- was never assigned, IndexError from indexing an empty sequence, TypeError
-- from formatting a non-int with a numeric format) are modelled by the
-- Crash type in an Except monad; an error message RETURNED as a value by a
-- parsing routine is a normal value, not a Crash.

/-- A value stored in a parsed-expression value list: a Python int, the
Python None, or a 2-tuple produced by range_tail. -/
inductive PyNum : Type
  | noneV : PyNum
  | intV : Nat → PyNum
  | pairV : Nat → Nat → PyNum
deriving DecidableEq, Repr

/-- A Python runtime exception escaping a call (a fatal, process-level
error, as opposed to an error message returned as a value). -/
inductive Crash : Type
  | unboundLocal : Crash
  | indexError : Crash
  | typeError : Crash
deriving DecidableEq, Repr

/-- The dictionary built by parse_expr: prefix part to list of numeric
parts and range pairs. Python dict modelled as an association list in key
insertion order. -/
abbrev Dict : Type := List (List Char × List PyNum)

/-- The value returned by parse_expr when it does not raise: either the
dictionary, or an error-message string (the source signals syntax errors
by returning a string instead of a dict). -/
inductive ParseOut : Type
  | dict : Dict → ParseOut
  | errstr : List Char → ParseOut
deriving DecidableEq, Repr

/-- string.atoi on a non-empty string of decimal digits. -/
def natOfDigits (ds : List Char) : Nat :=
  ds.foldl (fun a c => a * 10 + (c.toNat - Char.toNat ('0'))) 0

/-- Python str.split(sep) for a one-character separator: every occurrence
of the separator starts a new piece; the empty string yields one empty
piece. Embeds s.split( square-bracket-free ) at accessionlib.py:1051. -/
def pySplit (sep : Char) : List Char → List (List Char)
  | [] => [[]]
  | c :: rest =>
    if c = sep then [] :: pySplit sep rest
    else
      match pySplit sep rest with
      | [] => [[c]]
      | piece :: pieces => (c :: piece) :: pieces

/-- Whether re.search of two consecutive dots succeeds on the string. -/
def containsDotdot : List Char → Bool
  | [] => false
  | c :: rest =>
    (c = '.' && (match rest with
      | c2 :: _ => c2 = '.'
      | [] => false)) || containsDotdot rest

/-- split_accnum (accessionlib.py:1114-1137). The anchored greedy regex
with groups ((.*[^0-9])?) and ([0-9]*): the dot of the source regex does
not match a newline, while the non-digit class does. When the token holds
a newline, the greedy dot-star stops before the first newline, the
non-digit class consumes that newline, so the prefix group is the first
line plus the newline and the numeric group is the digit run immediately
after it (the rest of the token is left unconsumed by the anchored
match). When the token holds no newline, the prefix group ends at the
last non-digit and the numeric group is the maximal all-digit suffix.
atoi converts a non-empty numeric group, an empty one becomes None. -/
def split_accnum (accnum : List Char) : List Char × Option Nat :=
  if accnum.contains ('\n') then
    let p := (accnum.takeWhile (fun c => !(c == '\n'))).length
    let pfx := accnum.take (p + 1)
    let numericStr := (accnum.drop (p + 1)).takeWhile Char.isDigit
    (pfx, if numericStr = [] then none else some (natOfDigits numericStr))
  else
    let numericStr := (accnum.reverse.takeWhile Char.isDigit).reverse
    let pfx := (accnum.reverse.dropWhile Char.isDigit).reverse
    (pfx, if numericStr = [] then none else some (natOfDigits numericStr))

/-- simple_accnum (accessionlib.py:1073-1112). The source assigns
firstplus only when re.search of a plus FAILS, and firstdotdot only when
re.search of two dots FAILS; when either search succeeds the very next
read of that local raises UnboundLocalError. In the surviving path both
stand at thelen+1, so the whole remaining string is the accnum and the
remainder is empty. -/
def simple_accnum (cur : List Char) : Except Crash ((List Char × Option Nat) × List Char) :=
  let thelen := cur.length
  if cur.contains ('+') then Except.error Crash.unboundLocal
  else
    let firstplus := thelen + 1
    let endnum := firstplus
    if containsDotdot cur then Except.error Crash.unboundLocal
    else
      let firstdotdot := thelen + 1
      let endnum2 := if firstdotdot < endnum then firstdotdot else endnum
      Except.ok (split_accnum (cur.take endnum2), cur.drop endnum2)

/-- The default syntax-error message (accessionlib.py:1027), returned as a
value. Note the two spaces after the colon, as in the source. -/
def DefaultErrorMsg : List Char := "Error:  Invalid accession ID query.".data

/-- The message returned by range_tail when no number follows the two
dots (accessionlib.py:1175). -/
def RangeErrMsg : List Char := "Error: Invalid accession ID range.".data

/-- The message returned by range_tail when the value before the two dots
was absent (accessionlib.py:1179). -/
def RangeErrMsg2 : List Char := "Invalid accession number range.".data

/-- number (accessionlib.py:1213-1232): parse a leading run of decimal
digits from the current string; on failure return the error message and
leave the string unchanged. -/
def number (cur : List Char) : Except (List Char) Nat × List Char :=
  let numstr := cur.takeWhile Char.isDigit
  if numstr = [] then (Except.error DefaultErrorMsg, cur)
  else (Except.ok (natOfDigits numstr), cur.drop numstr.length)

mutual

/-- tail (accessionlib.py:1139-1157): dispatch on two leading dots or a
leading plus; indexing position 0 of an empty string raises IndexError. -/
def tail (vallist : List PyNum) (cur : List Char) :
    Except Crash (Option (List Char) × List PyNum × List Char) :=
  if cur.take 2 = ['.', '.'] then range_tail vallist cur
  else
    match hcur : cur with
    | [] => Except.error Crash.indexError
    | c :: _ =>
      if c = '+' then plus_tail vallist cur
      else Except.ok (some DefaultErrorMsg, vallist, cur)
termination_by 2 * cur.length + 1
decreasing_by
  · omega
  · rw [hcur]
    simp only [List.length_cons]
    omega

/-- range_tail (accessionlib.py:1159-1189): drop the two dots, read a
number, and turn the last value of vallist into a pair. Reading the last
element of an empty vallist raises IndexError. When the last element is
already a pair the source would build a nested tuple, which the flat PyNum
cannot hold; no caller can reach that case (tail is entered with a fresh
int or None as the last value), and it is modelled as a typeError Crash. -/
def range_tail (vallist : List PyNum) (cur : List Char) :
    Except Crash (Option (List Char) × List PyNum × List Char) :=
  match h : number (cur.drop 2) with
  | (Except.error _, cur2) => Except.ok (some RangeErrMsg, vallist, cur2)
  | (Except.ok secondnumber, cur2) =>
    match vallist.getLast? with
    | none => Except.error Crash.indexError
    | some PyNum.noneV => Except.ok (some RangeErrMsg2, vallist, cur2)
    | some (PyNum.intV n) =>
      let vallist2 := vallist.dropLast ++ [PyNum.pairV n secondnumber]
      match cur2 with
      | [] => Except.ok (none, vallist2, [])
      | c :: _ =>
        if c = '+' then plus_tail vallist2 cur2
        else Except.ok (some DefaultErrorMsg, vallist2, cur2)
    | some (PyNum.pairV _ _) => Except.error Crash.typeError
termination_by 2 * cur.length
decreasing_by
  have h0 : number (List.drop 2 cur) = (Except.ok secondnumber, cur2) := by assumption
  by_cases hts : (List.drop 2 cur).takeWhile Char.isDigit = []
  · simp only [number, hts, if_pos] at h0
    simp at h0
  · simp only [number, hts, if_neg, ite_false] at h0
    rw [Prod.mk.injEq] at h0
    have h2 := h0.2
    have hk : 0 < ((List.drop 2 cur).takeWhile Char.isDigit).length :=
      List.length_pos.mpr hts
    have hsrc : List.drop 2 cur ≠ [] := by
      intro e
      rw [e] at hts
      exact hts rfl
    have hs : 0 < (List.drop 2 cur).length := List.length_pos.mpr hsrc
    rw [← h2]
    simp only [List.length_drop] at hs ⊢
    omega

/-- plus_tail (accessionlib.py:1191-1211): drop the plus, read a number,
append it, and recurse into tail when input remains. -/
def plus_tail (vallist : List PyNum) (cur : List Char) :
    Except Crash (Option (List Char) × List PyNum × List Char) :=
  match h : number (cur.drop 1) with
  | (Except.error _, cur2) => Except.ok (some DefaultErrorMsg, vallist, cur2)
  | (Except.ok thenumber, cur2) =>
    let vallist2 := vallist ++ [PyNum.intV thenumber]
    match cur2 with
    | [] => Except.ok (none, vallist2, [])
    | _ :: _ => tail vallist2 cur2
termination_by 2 * cur.length
decreasing_by
  have h0 : number (List.drop 1 cur) = (Except.ok thenumber, cur2) := by assumption
  by_cases hts : (List.drop 1 cur).takeWhile Char.isDigit = []
  · simp only [number, hts, if_pos] at h0
    simp at h0
  · simp only [number, hts, if_neg, ite_false] at h0
    rw [Prod.mk.injEq] at h0
    have h2 := h0.2
    have hk : 0 < ((List.drop 1 cur).takeWhile Char.isDigit).length :=
      List.length_pos.mpr hts
    have hsrc : List.drop 1 cur ≠ [] := by
      intro e
      rw [e] at hts
      exact hts rfl
    have hs : 0 < (List.drop 1 cur).length := List.length_pos.mpr hsrc
    rw [← h2]
    simp only [List.length_drop] at hs ⊢
    omega

end

/-- Python dict membership test plus list-append used by parse_expr: if
the key is present, append the value to its list in place, otherwise add
the key with a fresh one-element list. -/
def dictAppend (d : Dict) (k : List Char) (v : PyNum) : Dict :=
  match d with
  | [] => [(k, [v])]
  | (k0, vs0) :: rest =>
    if k0 = k then (k0, vs0 ++ [v]) :: rest
    else (k0, vs0) :: dictAppend rest k v

/-- Reading retval of a key, defaulting to the empty list (the key is
always present where the source reads it). -/
def lookupD (d : Dict) (k : List Char) : List PyNum :=
  match d with
  | [] => []
  | (k0, vs0) :: rest => if k0 = k then vs0 else lookupD rest k

/-- In-place replacement of the list stored under a key, modelling the
mutation of the shared list object performed by the tail routines. The
key is always present where this is used. -/
def dictSet (d : Dict) (k : List Char) (vs : List PyNum) : Dict :=
  match d with
  | [] => [(k, vs)]
  | (k0, vs0) :: rest =>
    if k0 = k then (k0, vs) :: rest
    else (k0, vs0) :: dictSet rest k vs

/-- Python None or int from simple_accnum, as stored in the value list. -/
def pyNumOf : Option Nat → PyNum
  | none => PyNum.noneV
  | some n => PyNum.intV n

/-- The per-segment loop of parse_expr (accessionlib.py:1053-1068): run
simple_accnum on the segment, record the numeric under its prefix, and
parse a tail when input remains; a tail error message replaces the whole
accumulated dict and stops the loop. -/
def parse_expr_segs : List (List Char) → Dict → Except Crash ParseOut
  | [], retval => Except.ok (ParseOut.dict retval)
  | sae :: rest, retval =>
    match simple_accnum sae with
    | Except.error c => Except.error c
    | Except.ok ((pfx, numeric), cur) =>
      let retval2 := dictAppend retval pfx (pyNumOf numeric)
      if cur = [] then parse_expr_segs rest retval2
      else
        match tail (lookupD retval2 pfx) cur with
        | Except.error c => Except.error c
        | Except.ok (some msg, _, _) => Except.ok (ParseOut.errstr msg)
        | Except.ok (none, vallist2, _) => parse_expr_segs rest (dictSet retval2 pfx vallist2)

/-- parse_expr (accessionlib.py:1030-1071): split the expression on the
comma character and process the pieces left to right with one shared
accumulator. -/
def parse_expr (s : List Char) : Except Crash ParseOut :=
  parse_expr_segs (pySplit (',') s) []

/-- parse_id (accessionlib.py:581-588): a passthrough to parse_expr. -/
def parse_id (s : List Char) : Except Crash ParseOut :=
  parse_expr s

/-- The column prefix of build_sql (accessionlib.py:801-805): empty when
no table alias is given, otherwise the alias followed by a dot. -/
def col_pre (table : Option (List Char)) : List Char :=
  match table with
  | none => []
  | some t => t ++ ".".data

/-- Decimal rendering of a Python int by the percent-s and percent-d
formats and by str. -/
def natToChars (n : Nat) : List Char :=
  (Nat.repr n).data

/-- Python str applied to a list of ints: the elements joined by a comma
and a space, between square brackets. -/
def pyStrList (ns : List Nat) : List Char :=
  "[".data ++ List.intercalate (", ".data) (ns.map natToChars) ++ "]".data

/-- re.sub of a single character by another, applied to every
occurrence. -/
def subChar (a b : Char) (s : List Char) : List Char :=
  s.map (fun c => if c = a then b else c)

/-- The sets accumulator of build_sql (accessionlib.py:816-820): the
values of the list that are Python ints, in order. -/
def setsOf (vals : List PyNum) : List Nat :=
  vals.filterMap (fun v =>
    match v with
    | PyNum.intV n => some n
    | _ => none)

/-- The ranges accumulator of build_sql (accessionlib.py:816-820): the
values of the list that are tuples, in order. -/
def rangesOf (vals : List PyNum) : List (Nat × Nat) :=
  vals.filterMap (fun v =>
    match v with
    | PyNum.pairV lo hi => some (lo, hi)
    | _ => none)

/-- The single clause contributed by the sets list (accessionlib.py:
821-852): an is-null test when there are no ints, an equality when there
is one (with the prefix test turned into is-null for an empty prefix),
and an in-list when there are several (again with the is-null prefix
variant). The zero-ints branch has no empty-prefix variant in the
source. -/
def sets_clause (pre pfxPart : List Char) (sets : List Nat) : List Char :=
  match sets with
  | [] =>
    "(".data ++ pre ++ "prefixPart='".data ++ pfxPart ++ "'".data
      ++ " and ".data ++ pre ++ "numericPart is null)".data
  | [v] =>
    if pfxPart = [] then
      "(".data ++ pre ++ "prefixPart is null".data
        ++ " and ".data ++ pre ++ "numericPart=".data ++ natToChars v ++ ")".data
    else
      "(".data ++ pre ++ "prefixPart='".data ++ pfxPart ++ "'".data
        ++ " and ".data ++ pre ++ "numericPart=".data ++ natToChars v ++ ")".data
  | v1 :: v2 :: vrest =>
    let s := subChar (']') (')') (subChar ('[') ('(') (pyStrList (v1 :: v2 :: vrest)))
    if pfxPart = [] then
      "(".data ++ pre ++ "prefixPart is null".data
        ++ " and ".data ++ pre ++ "numericPart in ".data ++ s ++ ")".data
    else
      "(".data ++ pre ++ "prefixPart='".data ++ pfxPart ++ "'".data
        ++ " and ".data ++ pre ++ "numericPart in ".data ++ s ++ ")".data

/-- The clause contributed by one range tuple (accessionlib.py:854-865),
with the is-null prefix variant for an empty prefix. -/
def range_clause (pre pfxPart : List Char) (r : Nat × Nat) : List Char :=
  if pfxPart = [] then
    "(".data ++ pre ++ "prefixPart is null".data
      ++ " and ".data ++ pre ++ "numericPart".data
      ++ " between ".data ++ natToChars r.1 ++ " and ".data ++ natToChars r.2 ++ ")".data
  else
    "(".data ++ pre ++ "prefixPart='".data ++ pfxPart ++ "'".data
      ++ " and ".data ++ pre ++ "numericPart".data
      ++ " between ".data ++ natToChars r.1 ++ " and ".data ++ natToChars r.2 ++ ")".data

/-- All where_list entries contributed by one dict key (the body of the
outer loop of build_sql, accessionlib.py:812-865): exactly one sets
clause followed by one clause per range tuple. -/
def entry_clauses (pre pfxPart : List Char) (vals : List PyNum) : List (List Char) :=
  sets_clause pre pfxPart (setsOf vals)
    :: (rangesOf vals).map (range_clause pre pfxPart)

/-- build_sql (accessionlib.py:785-870): parse the search expression; a
returned error string is passed back unchanged; otherwise join all
per-key clauses with an or, wrap them in one parenthesis and append the
private-records conjunct. A Crash raised by the parser propagates. -/
def build_sql (search : List Char) (table : Option (List Char)) : Except Crash (List Char) :=
  let pre := col_pre table
  match parse_id search with
  | Except.error c => Except.error c
  | Except.ok (ParseOut.errstr msg) => Except.ok msg
  | Except.ok (ParseOut.dict d) =>
    let where_list := (d.map (fun e => entry_clauses pre e.1 e.2)).flatten
    Except.ok ("(".data ++ List.intercalate (" or ".data) where_list ++ ")".data
      ++ " and ".data ++ pre ++ "private = 0".data)

/-- The left-to-right order of appearance of recorded values for a given
prefix across the comma-separated segments, as described by the spec: in
a surviving parse each segment contributes the numeric part of its own
accession token to the list of its prefix, in segment order. -/
def segValues (saes : List (List Char)) (pfx : List Char) : List PyNum :=
  saes.filterMap (fun sae =>
    match simple_accnum sae with
    | Except.ok ((p, n), _) => if p = pfx then some (pyNumOf n) else none
    | Except.error _ => none)

/-- Concrete input with a range tail. -/
def inJRange : List Char := "J:1000..2000".data

/-- Concrete input with a chained tail. -/
def inChain : List Char := "123+345..350+355".data

/-- Concrete input with a malformed range tail after a digit-less token. -/
def inFooDots : List Char := "FOO..".data

/-- Concrete input with a plus tail. -/
def inOnePlusTwo : List Char := "1+2".data

/-- Concrete token inputs for the splitter. -/
def inMGI123 : List Char := "MGI:123".data

/-- Concrete digits-only token. -/
def in123 : List Char := "123".data

/-- Concrete digit-less token. -/
def inFOO : List Char := "FOO".data

/-- The prefix part of inMGI123. -/
def outMGIpfx : List Char := "MGI:".data

/-- Concrete tail-free compiler input. -/
def inJ1000 : List Char := "J:1000".data

/-- Concrete table alias. -/
def aliasA : List Char := "a".data

/-- Expected predicate for inJ1000 with alias aliasA. -/
def outJ1000 : List Char :=
  "((a.prefixPart='J:' and a.numericPart=1000)) and a.private = 0".data

/-- What build_sql actually returns for the empty expression. -/
def outEmptyActual : List Char :=
  "((prefixPart='' and numericPart is null)) and private = 0".data

/-- What the claim predicts for the empty expression. -/
def outEmptyClaimed : List Char :=
  "((prefixPart is null and numericPart is null)) and private = 0".data

/-- Concrete input where one prefix carries both an absent value and an
int. -/
def inFooFoo : List Char := "FOO,FOO123".data

/-- Expected predicate for inFooFoo without an alias. -/
def outFooFoo : List Char :=
  "((prefixPart='FOO' and numericPart=123)) and private = 0".data

/-- Concrete two-segment input sharing one prefix. -/
def inMgiTwo : List Char := "MGI:12,MGI:34".data

/-- The dict produced by parsing inMgiTwo. -/
def dMgiTwo : Dict := [(outMGIpfx, [PyNum.intV 12, PyNum.intV 34])]

/-- Concrete comma-free input containing a space. -/
def inAB1 : List Char := "A B1".data

/-- Concrete column prefix for witnesses. -/
def wPreA : List Char := "a.".data

/-- Concrete prefix part for witnesses. -/
def wPfxJ : List Char := "J:".data

/-- The dict produced by parsing inJ1000. -/
def dJ1000 : Dict := [(wPfxJ, [PyNum.intV 1000])]

/-- Concrete value list with two ints and two ranges. -/
def wValsC7 : List PyNum :=
  [PyNum.intV 7, PyNum.intV 9, PyNum.pairV 1 2, PyNum.pairV 3 4]

/-- Concrete value list with no ints. -/
def wValsC6 : List PyNum := [PyNum.noneV, PyNum.pairV 5 6]

/-- Concrete value list with an absent value and an int. -/
def wValsC10 : List PyNum := [PyNum.noneV, PyNum.intV 123]

/-- Concrete token holding a newline followed by letters and digits. -/
def inNlToken : List Char := "a\nb123".data

/-- What split_accnum returns for inNlToken: the first line plus the
newline. -/
def nlPfx : List Char := "a\n".data

/-- The prefix the maximal-digit-suffix reading predicts for inNlToken. -/
def nlClaimedPfx : List Char := "a\nb".data

/-- Concrete comma-free segment holding a newline. -/
def inANlB1 : List Char := "A\nB1".data

/-- The prefix recorded for inANlB1. -/
def pfxANl : List Char := "A\n".data

/-- The prefix the ordinary-character reading predicts for inANlB1. -/
def pfxANlB : List Char := "A\nB".data

/-- The same segment with an ordinary letter in place of the newline. -/
def inAXB1 : List Char := "AXB1".data

/-- The prefix recorded for inAXB1. -/
def pfxAXB : List Char := "AXB".data

theorem head?_dropWhile_false (p : Char → Bool) :
    ∀ (l : List Char) (c : Char), (l.dropWhile p).head? = some c → p c = false := by
  intro l
  induction l with
  | nil =>
    intro c h
    simp [List.dropWhile] at h
  | cons a t ih =>
    intro c h
    rw [List.dropWhile_cons] at h
    by_cases hp : p a = true
    · rw [if_pos hp] at h
      exact ih c h
    · rw [if_neg hp] at h
      simp only [List.head?_cons, Option.some.injEq] at h
      rw [← h]
      exact Bool.eq_false_iff.mpr hp

/-- C1: for a segment made of a simple token followed by plus and dotdot
tails, parse is claimed to record the grammar list, with
parse of J:1000..2000 giving a Range(1000, 2000) under the J: prefix and
123+345..350+355 giving Single(123), Range(345,350), Single(355). On the
code both inputs instead raise UnboundLocalError inside simple_accnum,
because firstplus and firstdotdot are only assigned when the searched
pattern is absent. -/
theorem c1_parse_crashes_on_range_and_chain :
    parse_expr inJRange = Except.error Crash.unboundLocal ∧
    parse_expr inChain = Except.error Crash.unboundLocal :=
  ⟨rfl, rfl⟩

/-- C2: parse is claimed to always return either a dict or a single error
value, never raising a fatal error, and to return Err on any malformed
tail such as FOO.. . On the code both FOO.. and the well-formed 1+2
raise UnboundLocalError (a process-level error, not a returned value). -/
theorem c2_parse_raises_instead_of_err :
    parse_expr inFooDots = Except.error Crash.unboundLocal ∧
    parse_expr inOnePlusTwo = Except.error Crash.unboundLocal :=
  ⟨rfl, rfl⟩

/-- C5: compile of FOO.. is claimed to propagate the same Err value that
parse of FOO.. produces. On the code parse of FOO.. produces no error
value at all: it raises UnboundLocalError, and build_sql propagates that
exception rather than an Err value. -/
theorem c5_build_sql_crash_not_err :
    build_sql inFooDots none = Except.error Crash.unboundLocal ∧
    parse_id inFooDots = Except.error Crash.unboundLocal :=
  ⟨rfl, rfl⟩

/-- C3 counterexample: the claim predicts that the numeric part of any
token is its maximal all-digit suffix, so split of the token holding a
newline before b123 would give prefix a-newline-b and numeric 123; the
source regex dot does not match a newline, so the code instead returns
the first line plus the newline as the prefix and an absent numeric,
dropping everything after the newline. -/
theorem c3_counterexample_newline :
    split_accnum inNlToken = (nlPfx, none) ∧
    (nlPfx, (none : Option Nat)) ≠ (nlClaimedPfx, some 123) :=
  ⟨rfl, by decide⟩

/-- C3 amended: split_accnum is total over any input string; for every
token holding no newline character, the numeric part is the maximal
all-digit suffix of the token, parsed as an integer when non-empty and
absent otherwise, and the prefix part is everything before it (the token
is the prefix followed by the suffix, the suffix is all digits, the
numeric result is its atoi value, and the prefix does not end in a digit,
so the suffix is maximal); the four listed concrete examples follow. -/
theorem c3_split_accnum_maximal_digit_suffix :
    (∀ accnum : List Char, accnum.contains ('\n') = false → ∃ ds : List Char,
      accnum = (split_accnum accnum).1 ++ ds ∧
      (∀ c ∈ ds, c.isDigit = true) ∧
      (split_accnum accnum).2 = (if ds = [] then none else some (natOfDigits ds)) ∧
      (∀ c : Char, ((split_accnum accnum).1).getLast? = some c → c.isDigit = false)) ∧
    split_accnum inMGI123 = (outMGIpfx, some 123) ∧
    split_accnum in123 = ([], some 123) ∧
    split_accnum inFOO = (inFOO, none) ∧
    split_accnum [] = ([], none) := by
  refine ⟨?_, rfl, rfl, rfl, rfl⟩
  intro accnum h
  have hne : ¬ accnum.contains ('\n') = true := by
    rw [h]
    exact Bool.false_ne_true
  have e1 : split_accnum accnum
      = ((accnum.reverse.dropWhile Char.isDigit).reverse,
         if (accnum.reverse.takeWhile Char.isDigit).reverse = [] then none
         else some (natOfDigits (accnum.reverse.takeWhile Char.isDigit).reverse)) := by
    simp only [split_accnum]
    rw [if_neg hne]
  have h1 : (split_accnum accnum).1 = (accnum.reverse.dropWhile Char.isDigit).reverse := by
    rw [e1]
  refine ⟨(accnum.reverse.takeWhile Char.isDigit).reverse, ?_, ?_, ?_, ?_⟩
  · rw [h1, ← List.reverse_append, List.takeWhile_append_dropWhile Char.isDigit accnum.reverse,
      List.reverse_reverse]
  · intro c hc
    rw [List.mem_reverse] at hc
    exact List.mem_takeWhile_imp hc
  · rw [e1]
  · intro c hc
    rw [h1, List.getLast?_reverse] at hc
    exact head?_dropWhile_false Char.isDigit accnum.reverse c hc

theorem c3_witness :
    inMGI123.contains ('\n') = false ∧
    (∃ ds : List Char,
      inMGI123 = (split_accnum inMGI123).1 ++ ds ∧
      (∀ c ∈ ds, c.isDigit = true) ∧
      (split_accnum inMGI123).2 = (if ds = [] then none else some (natOfDigits ds)) ∧
      (∀ c : Char, ((split_accnum inMGI123).1).getLast? = some c → c.isDigit = false)) :=
  ⟨by decide, c3_split_accnum_maximal_digit_suffix.1 inMGI123 (by decide)⟩

/-- C4: compile of J:1000 with table alias a returns exactly the claimed
string; the column prefix of an alias is the alias followed by a dot; and
a one-int value list under a non-empty prefix compiles to the equality
clause with every column reference carrying the column prefix. -/
theorem c4_build_sql_single_alias :
    build_sql inJ1000 (some aliasA) = Except.ok outJ1000 ∧
    (∀ a : List Char, col_pre (some a) = a ++ ".".data) ∧
    (∀ (pre pfx : List Char) (v : Nat), pfx ≠ [] →
      sets_clause pre pfx [v]
        = "(".data ++ pre ++ "prefixPart='".data ++ pfx ++ "'".data
            ++ " and ".data ++ pre ++ "numericPart=".data ++ natToChars v ++ ")".data) := by
  refine ⟨rfl, fun a => rfl, ?_⟩
  intro pre pfx v h
  simp [sets_clause, h]

theorem c4_witness :
    wPfxJ ≠ [] ∧
    sets_clause wPreA wPfxJ [1000]
      = "(".data ++ wPreA ++ "prefixPart='".data ++ wPfxJ ++ "'".data
          ++ " and ".data ++ wPreA ++ "numericPart=".data ++ natToChars 1000 ++ ")".data :=
  ⟨by decide, c4_build_sql_single_alias.2.2 wPreA wPfxJ 1000 (by decide)⟩

/-- C6 counterexample: the claim predicts that a zero-singles entry with
an empty prefix compiles to a clause with an is-null prefix test. Parsing
the empty expression yields exactly such an entry, and build_sql emits
the quoted-empty-string form instead, which differs from the predicted
output. -/
theorem c6_counterexample_empty_prefix :
    parse_expr ([] : List Char) = Except.ok (ParseOut.dict [(([] : List Char), [PyNum.noneV])]) ∧
    build_sql [] none = Except.ok outEmptyActual ∧
    outEmptyActual ≠ outEmptyClaimed :=
  ⟨rfl, rfl, by decide⟩

/-- C6 amended: an entry whose list contains zero int values compiles to
the clause with the quoted prefix and an is-null numeric test, for every
prefix including the empty one; the is-null substitution for an empty
prefix exists only in the one-int and several-int branches. -/
theorem c6_zero_singles_clause (pre pfx : List Char) (vals : List PyNum)
    (h : setsOf vals = []) :
    entry_clauses pre pfx vals
      = ("(".data ++ pre ++ "prefixPart='".data ++ pfx ++ "'".data
          ++ " and ".data ++ pre ++ "numericPart is null)".data)
        :: (rangesOf vals).map (range_clause pre pfx) := by
  unfold entry_clauses
  rw [h]
  rfl

theorem c6_witness :
    setsOf wValsC6 = [] ∧
    entry_clauses wPreA wPfxJ wValsC6
      = ("(".data ++ wPreA ++ "prefixPart='".data ++ wPfxJ ++ "'".data
          ++ " and ".data ++ wPreA ++ "numericPart is null)".data)
        :: (rangesOf wValsC6).map (range_clause wPreA wPfxJ) :=
  ⟨by decide, c6_zero_singles_clause wPreA wPfxJ wValsC6 (by decide)⟩

theorem lookupD_dictAppend (d : Dict) (k : List Char) (v : PyNum) (k2 : List Char) :
    lookupD (dictAppend d k v) k2 = lookupD d k2 ++ (if k = k2 then [v] else []) := by
  induction d with
  | nil =>
    simp only [dictAppend, lookupD]
    by_cases h : k = k2 <;> simp [h]
  | cons e rest ih =>
    obtain ⟨k0, vs0⟩ := e
    simp only [dictAppend]
    by_cases h0 : k0 = k
    · subst h0
      rw [if_pos rfl]
      by_cases h2 : k0 = k2 <;> simp [lookupD, h2]
    · rw [if_neg h0]
      by_cases h2 : k0 = k2
      · have hk : ¬ k = k2 := by
          intro e2
          exact h0 (h2.trans e2.symm)
        simp [lookupD, h2, hk]
      · simp [lookupD, h2, ih]

theorem simple_accnum_ok (cur : List Char) (pn : List Char × Option Nat) (rest : List Char)
    (h : simple_accnum cur = Except.ok (pn, rest)) :
    pn = split_accnum cur ∧ rest = [] := by
  simp only [simple_accnum] at h
  split at h
  · exact absurd h (by simp)
  · split at h
    · exact absurd h (by simp)
    · simp only [if_neg (Nat.lt_irrefl (cur.length + 1))] at h
      rw [List.take_of_length_le (by omega), List.drop_eq_nil_of_le (by omega)] at h
      simp only [Except.ok.injEq, Prod.mk.injEq] at h
      exact ⟨h.1.symm, h.2.symm⟩

theorem parse_expr_segs_lookup :
    ∀ (saes : List (List Char)) (retval : Dict) (d : Dict),
      parse_expr_segs saes retval = Except.ok (ParseOut.dict d) →
      ∀ pfx, lookupD d pfx = lookupD retval pfx ++ segValues saes pfx := by
  intro saes
  induction saes with
  | nil =>
    intro retval d h pfx
    simp only [parse_expr_segs, Except.ok.injEq, ParseOut.dict.injEq] at h
    subst h
    simp [segValues]
  | cons sae rest ih =>
    intro retval d h pfx
    simp only [parse_expr_segs] at h
    rcases hsa : simple_accnum sae with c | pr
    · rw [hsa] at h
      simp at h
    · obtain ⟨⟨p, n⟩, cur⟩ := pr
      obtain ⟨_, hrest⟩ := simple_accnum_ok sae _ _ hsa
      subst hrest
      rw [hsa] at h
      simp only [if_pos rfl] at h
      have hmain := ih (dictAppend retval p (pyNumOf n)) d h pfx
      rw [hmain, lookupD_dictAppend]
      by_cases hp : p = pfx
      · simp [segValues, List.filterMap_cons, hsa, hp, List.append_assoc]
      · simp [segValues, List.filterMap_cons, hsa, hp]

/-- C8: whenever parse returns a dict, the list recorded under each
prefix is exactly the left-to-right sequence of the values contributed
by the comma-separated segments carrying that prefix, so segments sharing
one prefix accumulate into a single list in encounter order. -/
theorem c8_order_of_appearance (s : List Char) (d : Dict)
    (h : parse_expr s = Except.ok (ParseOut.dict d)) (pfx : List Char) :
    lookupD d pfx = segValues (pySplit (',') s) pfx := by
  have h2 : parse_expr_segs (pySplit (',') s) [] = Except.ok (ParseOut.dict d) := h
  have hmain := parse_expr_segs_lookup (pySplit (',') s) [] d h2 pfx
  simpa [lookupD] using hmain

theorem c8_witness :
    parse_expr inMgiTwo = Except.ok (ParseOut.dict dMgiTwo) ∧
    lookupD dMgiTwo outMGIpfx = segValues (pySplit (',') inMgiTwo) outMGIpfx :=
  ⟨rfl, c8_order_of_appearance inMgiTwo dMgiTwo rfl outMGIpfx⟩

theorem pySplit_no_sep (sep : Char) :
    ∀ s : List Char, (∀ c ∈ s, c ≠ sep) → pySplit sep s = [s] := by
  intro s
  induction s with
  | nil =>
    intro _
    rfl
  | cons a t ih =>
    intro h
    have ha : ¬ a = sep := h a (by simp)
    have ht : ∀ c ∈ t, c ≠ sep := fun c hc => h c (by simp [hc])
    simp only [pySplit, if_neg ha]
    rw [ih ht]

/-- C9 counterexample: the claim treats every whitespace character as an
ordinary prefix character; replacing the ordinary letter X of AXB1 by a
newline does not yield the analogous entry with prefix A-newline-B and
value 1: the code records prefix A-newline with an absent value, because
the splitter regex dot stops at the newline. The newline still does not
separate segments: the input stays one single segment. -/
theorem c9_counterexample_newline :
    parse_expr inANlB1 = Except.ok (ParseOut.dict [(pfxANl, [PyNum.noneV])]) ∧
    parse_expr inAXB1 = Except.ok (ParseOut.dict [(pfxAXB, [PyNum.intV 1])]) ∧
    ParseOut.dict [(pfxANl, [PyNum.noneV])] ≠ ParseOut.dict [(pfxANlB, [PyNum.intV 1])] :=
  ⟨rfl, rfl, by decide⟩

/-- C9 amended: parse splits its input into segments only at commas — a
comma-free input is processed as one single segment, so no whitespace
character ever separates segments — and every whitespace character other
than the newline inside a segment is an ordinary prefix character, shown
for each such character placed between two prefix letters; a newline also
never separates segments, but inside a segment it truncates the token:
it becomes the last prefix character and only an immediate digit run
after it is taken as the numeric part. -/
theorem c9_comma_only_whitespace_ordinary :
    (∀ s : List Char, (∀ c ∈ s, c ≠ (',')) → parse_expr s = parse_expr_segs [s] []) ∧
    (∀ c : Char, c.isWhitespace = true → c ≠ ('\n') →
      parse_expr [('A' : Char), c, 'B', '1']
        = Except.ok (ParseOut.dict [([('A' : Char), c, 'B'], [PyNum.intV 1])])) ∧
    parse_expr inANlB1 = Except.ok (ParseOut.dict [(pfxANl, [PyNum.noneV])]) := by
  refine ⟨?_, ?_, rfl⟩
  · intro s h
    unfold parse_expr
    rw [pySplit_no_sep (',') s h]
  · intro c h hnl
    have h4 : ((c = ' ' ∨ c = '\t') ∨ c = '\x0d') ∨ c = '\n' := by
      simpa [Char.isWhitespace] using h
    rcases h4 with ((rfl | rfl) | rfl) | rfl
    · rfl
    · rfl
    · rfl
    · exact absurd rfl hnl

theorem c9_witness :
    parse_expr inAB1 = parse_expr_segs [inAB1] [] ∧
    ((' ' : Char).isWhitespace = true ∧ (' ' : Char) ≠ ('\n')) ∧
    parse_expr [('A' : Char), (' ' : Char), 'B', '1']
      = Except.ok (ParseOut.dict [([('A' : Char), (' ' : Char), 'B'], [PyNum.intV 1])]) :=
  ⟨c9_comma_only_whitespace_ordinary.1 inAB1 (by decide),
   ⟨by decide, by decide⟩,
   c9_comma_only_whitespace_ordinary.2.1 (' ') (by decide) (by decide)⟩

theorem sets_clause_ne_null (pre pfx : List Char) (v1 : Nat) (t : List Nat) :
    sets_clause pre pfx (v1 :: t) ≠ sets_clause pre pfx [] := by
  rcases t with _ | ⟨v2, vrest⟩
  · by_cases hp : pfx = []
    · subst hp
      have eL : sets_clause pre ([] : List Char) [v1]
          = "(".data ++ pre ++ "prefixPart is null".data ++ " and ".data ++ pre
            ++ "numericPart=".data ++ natToChars v1 ++ ")".data := rfl
      have eR : sets_clause pre ([] : List Char) []
          = "(".data ++ pre ++ "prefixPart='".data ++ ([] : List Char) ++ "'".data
            ++ " and ".data ++ pre ++ "numericPart is null)".data := rfl
      rw [eL, eR]
      intro he
      simp [List.append_right_inj] at he
    · have eL : sets_clause pre pfx [v1]
          = "(".data ++ pre ++ "prefixPart='".data ++ pfx ++ "'".data ++ " and ".data ++ pre
            ++ "numericPart=".data ++ natToChars v1 ++ ")".data := by
        simp [sets_clause, hp]
      have eR : sets_clause pre pfx []
          = "(".data ++ pre ++ "prefixPart='".data ++ pfx ++ "'".data
            ++ " and ".data ++ pre ++ "numericPart is null)".data := rfl
      rw [eL, eR]
      intro he
      simp [List.append_right_inj] at he
  · by_cases hp : pfx = []
    · subst hp
      have eL : sets_clause pre ([] : List Char) (v1 :: v2 :: vrest)
          = "(".data ++ pre ++ "prefixPart is null".data ++ " and ".data ++ pre
            ++ "numericPart in ".data
            ++ subChar (']') (')') (subChar ('[') ('(') (pyStrList (v1 :: v2 :: vrest)))
            ++ ")".data := rfl
      have eR : sets_clause pre ([] : List Char) []
          = "(".data ++ pre ++ "prefixPart='".data ++ ([] : List Char) ++ "'".data
            ++ " and ".data ++ pre ++ "numericPart is null)".data := rfl
      rw [eL, eR]
      intro he
      simp [List.append_right_inj] at he
    · have eL : sets_clause pre pfx (v1 :: v2 :: vrest)
          = "(".data ++ pre ++ "prefixPart='".data ++ pfx ++ "'".data ++ " and ".data ++ pre
            ++ "numericPart in ".data
            ++ subChar (']') (')') (subChar ('[') ('(') (pyStrList (v1 :: v2 :: vrest)))
            ++ ")".data := by
        simp [sets_clause, hp]
      have eR : sets_clause pre pfx []
          = "(".data ++ pre ++ "prefixPart='".data ++ pfx ++ "'".data
            ++ " and ".data ++ pre ++ "numericPart is null)".data := rfl
      rw [eL, eR]
      intro he
      simp [List.append_right_inj] at he

theorem setsOf_filter_not_none (vals : List PyNum) :
    setsOf (vals.filter (fun v => !(v == PyNum.noneV))) = setsOf vals := by
  induction vals with
  | nil => rfl
  | cons v t ih =>
    cases v <;> simp_all [setsOf, List.filter_cons, List.filterMap_cons]

theorem rangesOf_filter_not_none (vals : List PyNum) :
    rangesOf (vals.filter (fun v => !(v == PyNum.noneV))) = rangesOf vals := by
  induction vals with
  | nil => rfl
  | cons v t ih =>
    cases v <;> simp_all [rangesOf, List.filter_cons, List.filterMap_cons]

/-- C10: when a value list holds both an absent value and at least one
int, the compiler silently ignores the absent entries: the clauses are
the same as for the list with the absent values filtered out, the sets
clause is never the numericPart-is-null clause, and compiling
FOO,FOO123 yields only the numericPart equality clause for FOO. -/
theorem c10_absent_values_ignored :
    (∀ (pre pfx : List Char) (vals : List PyNum),
      PyNum.noneV ∈ vals → (∃ n, PyNum.intV n ∈ vals) →
      entry_clauses pre pfx vals
          = entry_clauses pre pfx (vals.filter (fun v => !(v == PyNum.noneV))) ∧
      sets_clause pre pfx (setsOf vals) ≠ sets_clause pre pfx []) ∧
    build_sql inFooFoo none = Except.ok outFooFoo := by
  constructor
  · intro pre pfx vals _ hint
    constructor
    · unfold entry_clauses
      rw [setsOf_filter_not_none, rangesOf_filter_not_none]
    · obtain ⟨n, hn⟩ := hint
      have hmem : n ∈ setsOf vals := List.mem_filterMap.mpr ⟨PyNum.intV n, hn, rfl⟩
      rcases hs : setsOf vals with _ | ⟨v1, t⟩
      · rw [hs] at hmem
        simp at hmem
      · exact sets_clause_ne_null pre pfx v1 t
  · rfl

theorem c10_witness :
    PyNum.noneV ∈ wValsC10 ∧ (∃ n, PyNum.intV n ∈ wValsC10) ∧
    sets_clause wPreA wPfxJ (setsOf wValsC10) ≠ sets_clause wPreA wPfxJ [] :=
  ⟨by decide, ⟨123, by decide⟩,
   (c10_absent_values_ignored.1 wPreA wPfxJ wValsC10 (by decide) ⟨123, by decide⟩).2⟩

/-- C7: every range tuple yields its own between clause and is never
folded into the in-list; for a value list with at least two ints and at
least two ranges the entry contributes exactly one sets clause (the
in-list form) plus one clause per range; and the whole predicate joins
all per-key clauses with an or, wraps them in one parenthesis and appends
the private-records conjunct. -/
theorem c7_ranges_always_separate :
    (∀ (pre pfx : List Char) (vals : List PyNum),
      2 ≤ (setsOf vals).length → 2 ≤ (rangesOf vals).length →
      (entry_clauses pre pfx vals).length = 1 + (rangesOf vals).length ∧
      (∃ v1 v2 vrest, setsOf vals = v1 :: v2 :: vrest ∧
        sets_clause pre pfx (setsOf vals)
          = (if pfx = [] then
              "(".data ++ pre ++ "prefixPart is null".data ++ " and ".data ++ pre
                ++ "numericPart in ".data
                ++ subChar (']') (')') (subChar ('[') ('(') (pyStrList (v1 :: v2 :: vrest)))
                ++ ")".data
            else
              "(".data ++ pre ++ "prefixPart='".data ++ pfx ++ "'".data ++ " and ".data ++ pre
                ++ "numericPart in ".data
                ++ subChar (']') (')') (subChar ('[') ('(') (pyStrList (v1 :: v2 :: vrest)))
                ++ ")".data)) ∧
      entry_clauses pre pfx vals
        = sets_clause pre pfx (setsOf vals) :: (rangesOf vals).map (range_clause pre pfx) ∧
      (∀ r ∈ rangesOf vals,
        range_clause pre pfx r
          = (if pfx = [] then
              "(".data ++ pre ++ "prefixPart is null".data ++ " and ".data ++ pre
                ++ "numericPart".data ++ " between ".data ++ natToChars r.1
                ++ " and ".data ++ natToChars r.2 ++ ")".data
            else
              "(".data ++ pre ++ "prefixPart='".data ++ pfx ++ "'".data ++ " and ".data ++ pre
                ++ "numericPart".data ++ " between ".data ++ natToChars r.1
                ++ " and ".data ++ natToChars r.2 ++ ")".data))) ∧
    (∀ (search : List Char) (table : Option (List Char)) (d : Dict),
      parse_id search = Except.ok (ParseOut.dict d) →
      build_sql search table
        = Except.ok ("(".data
            ++ List.intercalate (" or ".data)
                ((d.map (fun e => entry_clauses (col_pre table) e.1 e.2)).flatten)
            ++ ")".data ++ " and ".data ++ col_pre table ++ "private = 0".data)) := by
  constructor
  · intro pre pfx vals h1 h2
    refine ⟨?_, ?_, rfl, ?_⟩
    · simp [entry_clauses, Nat.add_comm]
    · rcases hs : setsOf vals with _ | ⟨v1, _ | ⟨v2, vrest⟩⟩
      · rw [hs] at h1
        simp at h1
      · rw [hs] at h1
        simp at h1
      · refine ⟨v1, v2, vrest, rfl, ?_⟩
        by_cases hp : pfx = []
        · subst hp
          rfl
        · simp [sets_clause, hp]
    · intro r _
      rfl
  · intro search table d h
    simp [build_sql, h]

theorem c7_witness :
    2 ≤ (setsOf wValsC7).length ∧ 2 ≤ (rangesOf wValsC7).length ∧
    (entry_clauses wPreA wPfxJ wValsC7).length = 1 + (rangesOf wValsC7).length ∧
    parse_id inJ1000 = Except.ok (ParseOut.dict dJ1000) ∧
    build_sql inJ1000 (some aliasA)
      = Except.ok ("(".data
          ++ List.intercalate (" or ".data)
              ((dJ1000.map (fun e => entry_clauses (col_pre (some aliasA)) e.1 e.2)).flatten)
          ++ ")".data ++ " and ".data ++ col_pre (some aliasA) ++ "private = 0".data) :=
  ⟨by decide, by decide,
   (c7_ranges_always_separate.1 wPreA wPfxJ wValsC7 (by decide) (by decide)).1,
   rfl,
   c7_ranges_always_separate.2 inJ1000 (some aliasA) dJ1000 rfl⟩
